import Mathlib

/-!
Verification of the response-payload extraction routine and the CLI error
paths of `simple_assistant.py`.

The program is dynamically typed Python, so the embedding works over an
explicit universe `PyVal` of the Python values that can appear in or around
an API response.  Attribute access with a default (`getattr(x, name, d)`),
truthiness (`if x:`), and iteration (`for y in x:`) are modelled as total
Lean functions; operations that can raise a Python exception return
`Except Unit`.  The `try/except Exception: pass` wrapper of the extraction
phase is modelled explicitly, keeping the images appended before a failure,
exactly as mutation of the Python list `images` would.
-/

/-- Universe of dynamic Python values used by the embedding.  `obj` is a
generic object carrying named attributes (the shape of SDK response
objects); the remaining constructors are the primitive values the
extraction code inspects with `isinstance` and truthiness tests. -/
inductive PyVal where
  | none
  | bool (b : Bool)
  | int (n : Int)
  | str (s : String)
  | bytes (bs : List Nat)
  | bytearray (bs : List Nat)
  | list (xs : List PyVal)
  | obj (fields : List (String × PyVal))

/-- Python truthiness (`bool(v)`): `None`, `False`, zero, and empty
strings/containers are falsy; a plain object is always truthy. -/
def pyTruthy : PyVal → Bool
  | .none => false
  | .bool b => b
  | .int n => n != 0
  | .str s => s != ""
  | .bytes bs => !bs.isEmpty
  | .bytearray bs => !bs.isEmpty
  | .list xs => !xs.isEmpty
  | .obj _ => true

/-- First attribute binding with the given name (Python attribute lookup;
with duplicate names the first wins). -/
def lookupField : List (String × PyVal) → String → Option PyVal
  | [], _ => Option.none
  | (k, v) :: rest, name => if k == name then some v else lookupField rest name

/-- Models `getattr(v, name, dflt)`: only `obj` values carry attributes;
every other value falls back to the default. -/
def getattrD (v : PyVal) (name : String) (dflt : PyVal) : PyVal :=
  match v with
  | .obj fields => (lookupField fields name).getD dflt
  | _ => dflt

/-- Models `hasattr(v, name)` for the modelled value universe. -/
def hasAttr (v : PyVal) (name : String) : Bool :=
  match v with
  | .obj fields => (lookupField fields name).isSome
  | _ => false

/-- Models `for y in v` / `list(v)`: lists iterate their elements, strings
iterate one-character strings, bytes iterate integers; any other value
raises `TypeError`. -/
def pyIter : PyVal → Except Unit (List PyVal)
  | .list xs => .ok xs
  | .str s => .ok (s.toList.map fun c => .str (String.mk [c]))
  | .bytes bs => .ok (bs.map fun b => .int (Int.ofNat b))
  | .bytearray bs => .ok (bs.map fun b => .int (Int.ofNat b))
  | _ => .error ()

/-! ### Base64, as used by `base64.b64decode` on the inline text form -/

/-- The standard base64 alphabet (RFC 4648), in value order. -/
def b64Alphabet : List Char :=
  "ABCDEFGHIJKLMNOPQRSTUVWXYZabcdefghijklmnopqrstuvwxyz0123456789+/".toList

/-- Value of one alphabet character, `Option.none` for a non-alphabet
character (including the padding character). -/
def b64CharVal (c : Char) : Option Nat :=
  b64Alphabet.findIdx? fun x => x == c

/-- Character with a given 6-bit value. -/
def b64ValChar (n : Nat) : Char := b64Alphabet.getD n 'A'

/-- Standard base64 encoding of a byte sequence, three bytes per group,
with `=` padding.  This is the spec-side meaning of a payload being a
base64-encoded text string. -/
def b64EncodeGroups : List Nat → List Char
  | [] => []
  | [a] => [b64ValChar (a / 4), b64ValChar (a % 4 * 16), '=', '=']
  | [a, b] => [b64ValChar (a / 4), b64ValChar (a % 4 * 16 + b / 16),
      b64ValChar (b % 16 * 4), '=']
  | a :: b :: c :: rest =>
      b64ValChar (a / 4) :: b64ValChar (a % 4 * 16 + b / 16) ::
      b64ValChar (b % 16 * 4 + c / 64) :: b64ValChar (c % 64) ::
      b64EncodeGroups rest

/-- Base64 encoding of a byte sequence as a string. -/
def b64encode (bs : List Nat) : String := String.mk (b64EncodeGroups bs)

/-- Characters `base64.b64decode` keeps: alphabet characters and padding
(non-alphabet characters are discarded before decoding, `validate=False`). -/
def b64keep (c : Char) : Bool := (b64CharVal c).isSome || (c == '=')

/-- Decode a base64 character stream, four characters per group; `=`
padding is accepted only at the end of the final group.  An input whose
kept-character count is not a multiple of four, or whose padding is
malformed, yields an error (Python raises `binascii.Error`).  CPython is
more lenient on pathological inputs with padding in the middle of the
stream; no claim exercises those. -/
def b64DecodeGroups : List Char → Except Unit (List Nat)
  | [] => .ok []
  | c1 :: c2 :: c3 :: c4 :: rest =>
    match b64CharVal c1, b64CharVal c2 with
    | some v1, some v2 =>
      if (c3 == '=') && (c4 == '=') && rest.isEmpty then
        .ok [v1 * 4 + v2 / 16]
      else
        match b64CharVal c3 with
        | some v3 =>
          if (c4 == '=') && rest.isEmpty then
            .ok [v1 * 4 + v2 / 16, v2 % 16 * 16 + v3 / 4]
          else
            match b64CharVal c4 with
            | some v4 =>
              match b64DecodeGroups rest with
              | .ok tail => .ok ((v1 * 4 + v2 / 16) :: (v2 % 16 * 16 + v3 / 4) ::
                  (v3 % 4 * 64 + v4) :: tail)
              | .error e => .error e
            | Option.none => .error ()
        | Option.none => .error ()
    | _, _ => .error ()
  | _ => .error ()

/-- Models `base64.b64decode(s)`: discard non-alphabet characters, then
decode in groups of four. -/
def b64decode (s : String) : Except Unit (List Nat) :=
  b64DecodeGroups (s.toList.filter b64keep)

/-! ### The payload extractor of `generate_image` (lines 70 to 93) -/

/-- Leading-segment test on character lists. -/
def charsLe : List Char → List Char → Bool
  | [], _ => true
  | _ :: _, [] => false
  | a :: as, b :: bs => (a == b) && charsLe as bs

/-- Models `s.startswith(p)` for strings. -/
def strStartsWith (s p : String) : Bool := charsLe p.toList s.toList

/-- Models the test `str(getattr(d, "mime_type", "")).startswith("image/")`.
In Python, `str()` of a non-string value renders as `None`, `True`,
`False`, a decimal numeral, a bytes repr starting with the letter b, a
bracketed list repr, or an angle-bracketed object repr; none of these
begin with `image/`, so only an actual string attribute can pass the
leading-segment test. -/
def mimeIsImage (d : PyVal) : Bool :=
  match getattrD d "mime_type" (.str "") with
  | .str s => strStartsWith s "image/"
  | _ => false

/-- Models `getattr(p, "inline_data", None) or getattr(p, "inlineData", None)`:
the first of the two attribute values that is truthy, otherwise the value
of the second lookup. -/
def inlineLookup (p : PyVal) : PyVal :=
  let a := getattrD p "inline_data" PyVal.none
  if pyTruthy a then a else getattrD p "inlineData" PyVal.none

/-- Payload contributed by one inline-data value `d`: require `d` truthy
and an image MIME type, then take `d.data` as raw bytes unchanged, decode
it when it is a text string (which may raise), and ignore every other
representation. -/
def payloadOfInline (d : PyVal) : Except Unit (List (List Nat)) :=
  if pyTruthy d && mimeIsImage d then
    match getattrD d "data" PyVal.none with
    | .bytes bs => .ok [bs]
    | .bytearray bs => .ok [bs]
    | .str s =>
      match b64decode s with
      | .ok bs => .ok [bs]
      | .error e => .error e
    | _ => .ok []
  else .ok []

/-- Payload contributed by one content part (lines 77 to 85 for one `p`). -/
def partPayload (p : PyVal) : Except Unit (List (List Nat)) :=
  payloadOfInline (inlineLookup p)

/-- Models the second loop over `parts`: the images appended so far and a
flag recording whether an exception stopped the loop.  An exception while
handling one part keeps the images appended by the earlier parts and
abandons the rest, exactly as mutation of the Python list would. -/
def partsRun : List PyVal → List (List Nat) × Bool
  | [] => ([], false)
  | p :: rest =>
    match partPayload p with
    | .error _ => ([], true)
    | .ok imgs =>
      let r := partsRun rest
      (imgs ++ r.1, r.2)

/-- Images appended by a run of the parts loop. -/
def imagesOf (ps : List PyVal) : List (List Nat) := (partsRun ps).1

/-- Content parts of one candidate (lines 74 to 76): skip a candidate
whose `content` or `content.parts` is absent or falsy; extending with a
non-iterable `parts` value raises. -/
def candParts (cand : PyVal) : Except Unit (List PyVal) :=
  let content := getattrD cand "content" PyVal.none
  if pyTruthy content && pyTruthy (getattrD content "parts" PyVal.none) then
    pyIter (getattrD content "parts" PyVal.none)
  else
    .ok []

/-- Models the first loop (lines 72 to 76): iterate
`getattr(resp, "candidates", []) or []` and concatenate each candidate's
parts; iterating a non-iterable `candidates` value raises. -/
def collectParts (resp : PyVal) : Except Unit (List PyVal) := do
  let candsVal := getattrD resp "candidates" (.list [])
  let cands := if pyTruthy candsVal then candsVal else .list []
  let candList ← pyIter cands
  candList.foldlM (fun acc c => do
    let ps ← candParts c
    pure (acc ++ ps)) []

/-- One run of the whole `try` body (lines 71 to 85): the images appended
to the Python list `images` and a flag recording whether an exception was
raised inside the body.  An exception in the first loop leaves `images`
empty (nothing was appended yet). -/
def bodyRun (resp : PyVal) : List (List Nat) × Bool :=
  match collectParts resp with
  | .error _ => ([], true)
  | .ok parts => partsRun parts

/-- The byte payloads the candidate/part traversal leaves in `images`
after `except Exception: pass` has swallowed any exception. -/
def extract_inline (resp : PyVal) : List (List Nat) := (bodyRun resp).1

/-- The full image-payload extraction phase of `generate_image` (lines 70
to 93): the traversal result, then the top-level `image` fallback (lines
90 to 93) when the traversal produced nothing.  The fallback value is
appended as-is, whatever its type, whenever it is truthy. -/
def extract_images (resp : PyVal) : List PyVal :=
  let images := (extract_inline resp).map PyVal.bytes
  if images.isEmpty then
    let data := getattrD resp "image" PyVal.none
    if pyTruthy data then [data] else []
  else images

/-- The extraction phase with Python exception semantics made explicit:
the result would be `Except.error` exactly when an exception escapes the
phase.  The `try/except Exception: pass` swallows every exception of the
body (`bodyRun`), keeping the images already appended; the fallback lines
use only `getattr` with a default and truthiness tests, which cannot
raise. -/
def extractPhaseRun (resp : PyVal) : Except Unit (List PyVal) :=
  let body := bodyRun resp
  let images := body.1.map PyVal.bytes
  .ok (if images.isEmpty then
    (if pyTruthy (getattrD resp "image" PyVal.none) then
      [getattrD resp "image" PyVal.none]
    else [])
  else images)

/-! ### The command-line surface -/

/-- Environment and filesystem facts a single invocation depends on:
the value of the `GEMINI_API_KEY` environment variable (`Option.none` when
unset) and which local paths exist. -/
structure World where
  gemini_api_key : Option String
  fileExists : String → Bool

/-- Models the test `if not os.environ.get("GEMINI_API_KEY")` in
`require_api_key`: the variable is missing when unset or empty. -/
def keyMissing (w : World) : Bool :=
  match w.gemini_api_key with
  | Option.none => true
  | some s => s == ""

/-- The two guidance lines `require_api_key` prints before `sys.exit(2)`. -/
def guidanceLines : List String :=
  ["Error: GEMINI_API_KEY is not set. Set it in this PowerShell session and try again.",
   "Example: $env:GEMINI_API_KEY = \"YOUR_API_KEY\""]

/-- Message printed when extraction finds no image. -/
def noImageMsg : String := "No image returned. Check API key, model access, and quota."

/-- Message printed for an unrecognised command. -/
def unknownCmdMsg : String := "Unknown command. Try: python simple_assistant.py help"

/-- The single string `print_usage` prints (one `print` call of the joined
lines). -/
def usageText : String :=
  String.intercalate "\n"
    ["Usage:",
     "  python simple_assistant.py chat <message>",
     "  python simple_assistant.py analyze-image <path>",
     "  python simple_assistant.py generate-image <prompt>",
     "  python simple_assistant.py help"]

/-- Observable outcome of one invocation: `exit code output writes` records
the exit code, the strings printed (one entry per `print` call), and the
files written (path and byte contents); `network` marks that execution
reached the remote API call, beyond which `chat` and `analyze_image` are
not modelled; `pyError` marks an uncaught Python exception. -/
inductive RunResult where
  | exit (code : Nat) (output : List String) (writes : List (String × List Nat))
  | network (output : List String)
  | pyError
deriving DecidableEq

/-- Wall-clock timestamp taken by `datetime.now()`. -/
structure PyTime where
  year : Nat
  month : Nat
  day : Nat
  hour : Nat
  minute : Nat
  second : Nat

/-- Zero-pad to two digits (strftime fields `%m %d %H %M %S`). -/
def pad2 (n : Nat) : String := if n < 10 then "0" ++ toString n else toString n

/-- Zero-pad to four digits (strftime field `%Y`; `datetime` years lie in
1 to 9999 and the years of interest have four digits). -/
def pad4 (n : Nat) : String :=
  if n < 10 then "000" ++ toString n
  else if n < 100 then "00" ++ toString n
  else if n < 1000 then "0" ++ toString n
  else toString n

/-- Models `datetime.now().strftime("%Y%m%d-%H%M%S")`. -/
def tsFormat (t : PyTime) : String :=
  pad4 t.year ++ pad2 t.month ++ pad2 t.day ++ "-" ++
    pad2 t.hour ++ pad2 t.minute ++ pad2 t.second

/-- Models `chat`: check the key, then perform the network call. -/
def chat_run (w : World) (_message : String) : RunResult :=
  if keyMissing w then .exit 2 guidanceLines [] else .network []

/-- Models `analyze_image`: check the key, then the file-existence test on
the given path (`str(Path(path))` is the path itself for the plain
relative names at issue), then the upload network call. -/
def analyze_image_run (w : World) (path : String) : RunResult :=
  if keyMissing w then .exit 2 guidanceLines []
  else if w.fileExists path then .network []
  else .exit 1 ["File not found: " ++ path] []

/-- Models `generate_image`: check the key, then the network request whose
result (a response object, or the message of a raised exception) is the
oracle input `net`; then extraction, and saving of the first payload.
`Path.write_bytes` accepts the bytes forms and raises `TypeError` on any
other first payload (reachable only through the top-level fallback). -/
def generate_image_run (w : World) (net : Except String PyVal) (t : PyTime)
    (_prompt : String) : RunResult :=
  if keyMissing w then .exit 2 guidanceLines []
  else
    match net with
    | .error e => .exit 1 ["Image generation request failed: " ++ e] []
    | .ok resp =>
      match extract_images resp with
      | [] => .exit 1 [noImageMsg] []
      | img :: _ =>
        let path := "outputs/gen-" ++ tsFormat t ++ ".png"
        match img with
        | .bytes bs => .exit 0 ["Saved: " ++ path] [(path, bs)]
        | .bytearray bs => .exit 0 ["Saved: " ++ path] [(path, bs)]
        | _ => .pyError

/-- Models `main(argv)`: usage for no arguments or the help words, then
dispatch on the command word; `net` and `t` are the oracle inputs a
`generate-image` run would consume. -/
def main_run (w : World) (net : Except String PyVal) (t : PyTime)
    (argv : List String) : RunResult :=
  if argv.length < 2 then .exit 1 [usageText] []
  else if argv.getD 1 "" = "-h" ∨ argv.getD 1 "" = "--help" ∨ argv.getD 1 "" = "help" then
    .exit 0 [usageText] []
  else
    let cmd := argv.getD 1 ""
    let args := argv.drop 2
    if cmd = "chat" then
      if args.isEmpty then .exit 1 ["Provide a message."] []
      else chat_run w (String.intercalate " " args)
    else if cmd = "analyze-image" then
      if args.isEmpty then .exit 1 ["Usage: python simple_assistant.py analyze-image <path>"] []
      else analyze_image_run w (args.getD 0 "")
    else if cmd = "generate-image" then
      if args.isEmpty then .exit 1 ["Usage: python simple_assistant.py generate-image <prompt>"] []
      else generate_image_run w net t (String.intercalate " " args)
    else .exit 1 [unknownCmdMsg] []

/-! ### Spec-side definitions and concrete fixtures -/

/-- Modelled from the spec: the design-note helper, a generic first match
in a priority list of already-looked-up attribute values, taking the first
truthy one. -/
def firstTruthy : List PyVal → PyVal
  | [] => PyVal.none
  | v :: rest => if pyTruthy v then v else firstTruthy rest

/-- Modelled from the spec: trying a small ordered list of candidate field
names and taking the first present one, where present means the object
actually carries the attribute. -/
def firstPresent (p : PyVal) : List String → Option PyVal
  | [] => Option.none
  | name :: rest => if hasAttr p name then some (getattrD p name PyVal.none) else firstPresent p rest

/-- Modelled from the spec: the payload one part contributes when the
inline-data field is looked up by taking the first present of the two
naming conventions (the reading of claim C3), with the extraction itself
unchanged. -/
def specPartPayload (p : PyVal) : Except Unit (List (List Nat)) :=
  payloadOfInline ((firstPresent p ["inline_data", "inlineData"]).getD PyVal.none)

/-- An inline-data object with the given MIME type and data value. -/
def mkInline (mt : String) (d : PyVal) : PyVal :=
  .obj [("mime_type", .str mt), ("data", d)]

/-- A content part carrying the given inline-data value under the
`inline_data` name. -/
def mkPart (d : PyVal) : PyVal := .obj [("inline_data", d)]

/-- A response with one candidate whose content carries the given parts. -/
def mkRespParts (parts : List PyVal) : PyVal :=
  .obj [("candidates", .list [.obj [("content", .obj [("parts", .list parts)])]])]

/-- A malformed response: `candidates` is an integer, so the first loop of
the extraction body raises `TypeError` when iterating it. -/
def respMalformed : PyVal := .obj [("candidates", .int 5)]

/-- A response whose only image-bearing field is the top-level fallback. -/
def respFallbackOnly : PyVal := .obj [("image", .bytes [9, 8, 7])]

/-- A response whose first image part carries invalid base64 text (one
lone alphabet character raises `binascii.Error`) and whose second part
carries raw image bytes. -/
def respDecodeErrThenBytes : PyVal :=
  mkRespParts [mkPart (mkInline "image/png" (.str "A")),
               mkPart (mkInline "image/png" (.bytes [5]))]

/-- A part whose `inline_data` attribute is present but `None`, while
`inlineData` carries image data. -/
def partNoneThenData : PyVal :=
  .obj [("inline_data", PyVal.none), ("inlineData", mkInline "image/png" (.bytes [7]))]

/-- Membership test for the data representations the inline extraction
recognises. -/
def otherRep (d : PyVal) : Bool :=
  match d with
  | .bytes _ => false
  | .bytearray _ => false
  | .str _ => false
  | _ => true

/-- Shorthand for an `Except` value being a success. -/
def isOkE {α : Type} : Except Unit α → Bool
  | .ok _ => true
  | .error _ => false

/-! ### Base64 round trip -/

theorem b64CharVal_valChar (n : Nat) (h : n < 64) : b64CharVal (b64ValChar n) = some n := by
  interval_cases n <;> rfl

theorem b64ValChar_ne_pad (n : Nat) (h : n < 64) : (b64ValChar n == '=') = false := by
  interval_cases n <;> rfl

theorem b64keep_valChar (n : Nat) : b64keep (b64ValChar n) = true := by
  by_cases h : n < 64
  · have e := b64CharVal_valChar n h
    simp [b64keep, e]
  · have hA : b64ValChar n = 'A' := by
      unfold b64ValChar
      apply List.getD_eq_default
      have : b64Alphabet.length = 64 := rfl
      omega
    rw [hA]
    rfl

theorem b64keep_pad : b64keep '=' = true := rfl

theorem b64EncodeGroups_filter (bs : List Nat) :
    (b64EncodeGroups bs).filter b64keep = b64EncodeGroups bs := by
  induction bs using b64EncodeGroups.induct with
  | case1 => rfl
  | case2 a =>
    simp [b64EncodeGroups, List.filter_cons, b64keep_valChar, b64keep_pad]
  | case3 a b =>
    simp [b64EncodeGroups, List.filter_cons, b64keep_valChar, b64keep_pad]
  | case4 a b c rest ih =>
    simp [b64EncodeGroups, List.filter_cons, b64keep_valChar, b64keep_pad, ih]

theorem b64DecodeGroups_encode (bs : List Nat) (h : ∀ b ∈ bs, b < 256) :
    b64DecodeGroups (b64EncodeGroups bs) = .ok bs := by
  induction bs using b64EncodeGroups.induct with
  | case1 => rfl
  | case2 a =>
    have ha : a < 256 := h a (by simp)
    have e1 := b64CharVal_valChar (a / 4) (by omega)
    have e2 := b64CharVal_valChar (a % 4 * 16) (by omega)
    simp [b64EncodeGroups, b64DecodeGroups, e1, e2]
    omega
  | case3 a b =>
    have ha : a < 256 := h a (by simp)
    have hb : b < 256 := h b (by simp)
    have e1 := b64CharVal_valChar (a / 4) (by omega)
    have e2 := b64CharVal_valChar (a % 4 * 16 + b / 16) (by omega)
    have e3 := b64CharVal_valChar (b % 16 * 4) (by omega)
    have n3 := b64ValChar_ne_pad (b % 16 * 4) (by omega)
    simp [b64EncodeGroups, b64DecodeGroups, e1, e2, e3, n3]
    constructor <;> omega
  | case4 a b c rest ih =>
    have ha : a < 256 := h a (by simp)
    have hb : b < 256 := h b (by simp)
    have hc : c < 256 := h c (by simp)
    have ih2 := ih (fun x hx => h x (by simp [hx]))
    have e1 := b64CharVal_valChar (a / 4) (by omega)
    have e2 := b64CharVal_valChar (a % 4 * 16 + b / 16) (by omega)
    have e3 := b64CharVal_valChar (b % 16 * 4 + c / 64) (by omega)
    have e4 := b64CharVal_valChar (c % 64) (by omega)
    have n3 := b64ValChar_ne_pad (b % 16 * 4 + c / 64) (by omega)
    have n4 := b64ValChar_ne_pad (c % 64) (by omega)
    simp [b64EncodeGroups, b64DecodeGroups, e1, e2, e3, e4, n3, n4, ih2]
    refine ⟨by omega, by omega, by omega⟩

theorem b64decode_encode (bs : List Nat) (h : ∀ b ∈ bs, b < 256) :
    b64decode (b64encode bs) = .ok bs := by
  unfold b64decode b64encode
  rw [show (String.mk (b64EncodeGroups bs)).toList = b64EncodeGroups bs from rfl]
  rw [b64EncodeGroups_filter]
  exact b64DecodeGroups_encode bs h

/-! ### Extractor lemmas -/

theorem payloadOfInline_falsy (d : PyVal) (hd : pyTruthy d = false) :
    payloadOfInline d = .ok [] := by
  unfold payloadOfInline
  rw [hd]
  simp

theorem payloadOfInline_notImage (d : PyVal) (hd : mimeIsImage d = false) :
    payloadOfInline d = .ok [] := by
  unfold payloadOfInline
  rw [hd]
  simp

theorem inlineLookup_mkPart (x : PyVal) (hx : pyTruthy x = true) :
    inlineLookup (mkPart x) = x := by
  have h : inlineLookup (mkPart x) =
      if pyTruthy x then x else getattrD (mkPart x) "inlineData" PyVal.none := rfl
  rw [h, hx]
  simp

theorem payloadOfInline_mkInline (mt : String) (d : PyVal)
    (hmt : strStartsWith mt "image/" = true) :
    payloadOfInline (mkInline mt d) =
      match d with
      | .bytes bs => .ok [bs]
      | .bytearray bs => .ok [bs]
      | .str s =>
        match b64decode s with
        | .ok bs => Except.ok [bs]
        | .error e => Except.error e
      | _ => .ok [] := by
  have h1 : pyTruthy (mkInline mt d) = true := rfl
  have h2 : mimeIsImage (mkInline mt d) = strStartsWith mt "image/" := rfl
  have h3 : getattrD (mkInline mt d) "data" PyVal.none = d := rfl
  unfold payloadOfInline
  rw [h1, h2, hmt, h3]
  simp

theorem partPayload_mkPart (mt : String) (d : PyVal) :
    partPayload (mkPart (mkInline mt d)) = payloadOfInline (mkInline mt d) := by
  unfold partPayload
  rw [inlineLookup_mkPart (mkInline mt d) rfl]

theorem partsRun_append_ok (ps : List PyVal)
    (hok : ∀ q ∈ ps, isOkE (partPayload q) = true) (rest : List PyVal) :
    partsRun (ps ++ rest) = (imagesOf ps ++ (partsRun rest).1, (partsRun rest).2) := by
  induction ps with
  | nil => simp [imagesOf, partsRun]
  | cons p tl ih =>
    have hp := hok p (by simp)
    cases hpp : partPayload p with
    | error e => rw [hpp] at hp; simp [isOkE] at hp
    | ok imgs =>
      have ih2 := ih (fun q hq => hok q (by simp [hq]))
      simp [partsRun, hpp, imagesOf, ih2]

theorem imagesOf_middle (ps₁ ps₂ : List PyVal) (p : PyVal) (imgs : List (List Nat))
    (hok : ∀ q ∈ ps₁, isOkE (partPayload q) = true)
    (hp : partPayload p = .ok imgs) :
    imagesOf (ps₁ ++ p :: ps₂) = imagesOf ps₁ ++ imgs ++ imagesOf ps₂ := by
  have h := partsRun_append_ok ps₁ hok (p :: ps₂)
  unfold imagesOf
  rw [h]
  simp [partsRun, hp, imagesOf, List.append_assoc]

theorem extract_inline_of_parts (resp : PyVal) (ps : List PyVal)
    (hps : collectParts resp = .ok ps) :
    extract_inline resp = imagesOf ps := by
  unfold extract_inline bodyRun
  rw [hps]
  rfl

theorem getattrD_of_not_hasAttr (r : PyVal) (name : String) (d : PyVal)
    (h : hasAttr r name = false) : getattrD r name d = d := by
  cases r <;> simp_all [hasAttr, getattrD]

/-! ### The claims -/

/-- Claim C1: for every response object, of any shape, the image-payload
extraction phase of `generate_image` never raises; an unexpected or empty
shape yields zero payloads rather than an error.  The phase with exception
semantics made explicit (`extractPhaseRun`) always succeeds and returns
the pure extraction result; `respMalformed` shows the guard is not
vacuous: its shape raises `TypeError` inside the `try` body, yet the phase
yields zero payloads. -/
theorem extraction_never_raises :
    (∀ resp : PyVal, extractPhaseRun resp = Except.ok (extract_images resp)) ∧
    (bodyRun respMalformed).2 = true ∧
    extract_images respMalformed = [] :=
  ⟨fun _ => rfl, rfl, rfl⟩

/-- Claim C2 (amended): for a response whose candidate/part traversal
yields a part with inline image data, provided every part the loop
processes earlier raises no exception: raw bytes (and bytearray) data is
returned byte-for-byte unchanged; base64-text data is returned correctly
decoded; data of any other representation contributes no payload.
(Without the proviso the claim fails: an earlier part whose text data is
invalid base64 raises, and the loop abandons every later part.) -/
theorem inline_payload_extraction (resp : PyVal) (ps₁ ps₂ : List PyVal)
    (mt : String) (d : PyVal) (bs : List Nat)
    (hparts : collectParts resp = .ok (ps₁ ++ mkPart (mkInline mt d) :: ps₂))
    (hok : ∀ q ∈ ps₁, isOkE (partPayload q) = true)
    (hmt : strStartsWith mt "image/" = true)
    (hbs : ∀ b ∈ bs, b < 256) :
    ((d = .bytes bs ∨ d = .bytearray bs) →
      extract_inline resp = imagesOf ps₁ ++ [bs] ++ imagesOf ps₂)
    ∧ (d = .str (b64encode bs) →
      extract_inline resp = imagesOf ps₁ ++ [bs] ++ imagesOf ps₂)
    ∧ (otherRep d = true →
      extract_inline resp = imagesOf ps₁ ++ imagesOf ps₂) := by
  have hext := extract_inline_of_parts resp _ hparts
  refine ⟨?_, ?_, ?_⟩
  · rintro (rfl | rfl)
    · rw [hext, imagesOf_middle ps₁ ps₂ _ [bs] hok
        (by rw [partPayload_mkPart, payloadOfInline_mkInline _ _ hmt])]
    · rw [hext, imagesOf_middle ps₁ ps₂ _ [bs] hok
        (by rw [partPayload_mkPart, payloadOfInline_mkInline _ _ hmt])]
  · rintro rfl
    rw [hext, imagesOf_middle ps₁ ps₂ _ [bs] hok
      (by rw [partPayload_mkPart, payloadOfInline_mkInline _ _ hmt]
          simp [b64decode_encode bs hbs])]
  · intro hd
    have hpp : partPayload (mkPart (mkInline mt d)) = .ok [] := by
      rw [partPayload_mkPart, payloadOfInline_mkInline _ _ hmt]
      cases d <;> simp_all [otherRep]
    rw [hext]
    have := imagesOf_middle ps₁ ps₂ _ [] hok hpp
    simpa using this

/-- Claim C2 witness: a one-part response with raw image bytes. -/
theorem inline_payload_extraction_witness :
    extract_inline (mkRespParts [mkPart (mkInline "image/png" (PyVal.bytes [1, 2]))]) =
      [[1, 2]] := by
  have h := (inline_payload_extraction
    (mkRespParts [mkPart (mkInline "image/png" (PyVal.bytes [1, 2]))])
    [] [] "image/png" (PyVal.bytes [1, 2]) [1, 2]
    rfl (by simp) rfl (by decide)).1 (Or.inl rfl)
  simpa [imagesOf, partsRun] using h

/-- Claim C2 counterexample: the claim as stated, with no proviso about
earlier parts, is false.  `respDecodeErrThenBytes` contains a part whose
inline data is the raw image bytes `[5]`, yet the extractor returns no
payload at all, because the part before it carries the invalid base64
text `A` whose decoding raises. -/
theorem inline_bytes_lost_after_decode_error :
    collectParts respDecodeErrThenBytes =
      .ok [mkPart (mkInline "image/png" (PyVal.str "A")),
           mkPart (mkInline "image/png" (PyVal.bytes [5]))] ∧
    partPayload (mkPart (mkInline "image/png" (PyVal.bytes [5]))) = .ok [[5]] ∧
    extract_images respDecodeErrThenBytes = [] :=
  ⟨rfl, rfl, rfl⟩

/-- Claim C3 counterexample: the claim reads the lookup as taking the
first PRESENT of the two naming conventions.  On `partNoneThenData` the
`inline_data` attribute is present with value `None`, so the first-present
reading extracts nothing, while the code (first TRUTHY value) falls
through to `inlineData` and extracts the payload `[7]`. -/
theorem first_present_lookup_refuted :
    firstPresent partNoneThenData ["inline_data", "inlineData"] = some PyVal.none ∧
    specPartPayload partNoneThenData = .ok [] ∧
    partPayload partNoneThenData = .ok [[7]] :=
  ⟨rfl, rfl, rfl⟩

/-- Claim C3 (amended): the extractor looks the inline-data field up by
trying the two naming conventions in a fixed order and taking the first
value that is truthy (not merely present) — the generic first-match
helper `firstTruthy` over the ordered list of the two lookups — and a
part whose looked-up MIME type does not start with `image/` contributes
no payload. -/
theorem inline_lookup_first_truthy (p : PyVal) :
    partPayload p = payloadOfInline (firstTruthy
      [getattrD p "inline_data" PyVal.none, getattrD p "inlineData" PyVal.none])
    ∧ (mimeIsImage (inlineLookup p) = false → partPayload p = .ok []) := by
  constructor
  · have hl : inlineLookup p =
        if pyTruthy (getattrD p "inline_data" PyVal.none) then
          getattrD p "inline_data" PyVal.none
        else getattrD p "inlineData" PyVal.none := rfl
    unfold partPayload
    rw [hl]
    cases h1 : pyTruthy (getattrD p "inline_data" PyVal.none) with
    | true => simp [firstTruthy, h1]
    | false =>
      cases h2 : pyTruthy (getattrD p "inlineData" PyVal.none) with
      | true => simp [firstTruthy, h1, h2]
      | false =>
        simp only [firstTruthy, h1, h2, Bool.false_eq_true, if_false]
        rw [payloadOfInline_falsy _ h2, payloadOfInline_falsy PyVal.none rfl]
  · intro hm
    unfold partPayload
    exact payloadOfInline_notImage _ hm

/-- Claim C3 witness: a part carrying a non-image MIME type contributes
no payload. -/
theorem inline_lookup_first_truthy_witness :
    mimeIsImage (inlineLookup (mkPart (mkInline "text/plain" (PyVal.bytes [1])))) = false ∧
    partPayload (mkPart (mkInline "text/plain" (PyVal.bytes [1]))) = .ok [] :=
  ⟨rfl, (inline_lookup_first_truthy (mkPart (mkInline "text/plain" (PyVal.bytes [1])))).2 rfl⟩

/-- Claim C4: the top-level `image` field is consulted if and only if the
candidate/part traversal produced zero payloads: with payloads present the
result is exactly their byte lists, independent of the `image` field; with
none, the result is the truthy `image` value alone, or nothing. -/
theorem fallback_consulted_iff_no_inline (resp : PyVal) :
    (extract_inline resp = [] →
      extract_images resp =
        (if pyTruthy (getattrD resp "image" PyVal.none) then
          [getattrD resp "image" PyVal.none] else []))
    ∧ (extract_inline resp ≠ [] →
      extract_images resp = (extract_inline resp).map PyVal.bytes) := by
  unfold extract_images
  cases h : extract_inline resp with
  | nil => simp
  | cons x xs => simp

/-- Claim C4 witness: a response whose only image-bearing field is the
top-level fallback yields exactly that one payload. -/
theorem fallback_consulted_iff_no_inline_witness :
    extract_inline respFallbackOnly = [] ∧
    extract_images respFallbackOnly = [PyVal.bytes [9, 8, 7]] := by
  refine ⟨rfl, ?_⟩
  rw [(fallback_consulted_iff_no_inline respFallbackOnly).1 rfl]
  rfl

/-- Claim C5: a response with no `candidates` attribute (hence no parts)
and no top-level `image` attribute extracts to the empty sequence, and
`generate_image` then prints the no-image message and returns exit code 1
— a normal negative outcome, with nothing written and no exception. -/
theorem empty_response_no_image (w : World) (resp : PyVal) (t : PyTime)
    (prompt : String)
    (hkey : keyMissing w = false)
    (hc : hasAttr resp "candidates" = false)
    (hi : hasAttr resp "image" = false) :
    extract_images resp = [] ∧
    generate_image_run w (.ok resp) t prompt = .exit 1 [noImageMsg] [] := by
  have e1 := getattrD_of_not_hasAttr resp "candidates" (PyVal.list []) hc
  have h1 : collectParts resp = .ok [] := by
    unfold collectParts
    rw [e1]
    rfl
  have h2 : extract_inline resp = [] := by
    unfold extract_inline bodyRun
    rw [h1]
    rfl
  have e2 := getattrD_of_not_hasAttr resp "image" PyVal.none hi
  have h3 : extract_images resp = [] := by
    unfold extract_images
    rw [h2, e2]
    rfl
  refine ⟨h3, ?_⟩
  unfold generate_image_run
  rw [hkey]
  simp [h3]

/-- Claim C5 witness: a response object carrying neither field. -/
theorem empty_response_no_image_witness :
    extract_images (PyVal.obj [("text", PyVal.str "hi")]) = [] ∧
    generate_image_run ⟨some "key", fun _ => false⟩
      (.ok (PyVal.obj [("text", PyVal.str "hi")])) ⟨2026, 10, 12, 1, 2, 3⟩ "prompt" =
      .exit 1 [noImageMsg] [] :=
  empty_response_no_image ⟨some "key", fun _ => false⟩
    (PyVal.obj [("text", PyVal.str "hi")]) ⟨2026, 10, 12, 1, 2, 3⟩ "prompt" rfl rfl rfl

/-- Claim C6 counterexample: the claim says an unknown command prints the
usage message.  The code prints a distinct unknown-command line pointing
at `help`, not the usage text that `print_usage` emits; the exit code 1
does hold. -/
theorem unknown_command_not_usage :
    main_run ⟨Option.none, fun _ => false⟩ (Except.error "") ⟨0, 0, 0, 0, 0, 0⟩
      ["simple_assistant.py", "frobnicate"] = .exit 1 [unknownCmdMsg] [] ∧
    unknownCmdMsg ≠ usageText :=
  ⟨rfl, by decide⟩

/-- Claim C6 (amended): for every argument vector whose command word is
not one of `chat`, `analyze-image`, `generate-image`, `help` or the help
flags, `main` prints the unknown-command message (directing the user to
`help`) and returns exit code 1. -/
theorem unknown_command_exit1 (w : World) (net : Except String PyVal) (t : PyTime)
    (argv : List String)
    (hlen : 2 ≤ argv.length)
    (hcmd : argv.getD 1 "" ∉
      (["chat", "analyze-image", "generate-image", "help", "-h", "--help"] : List String)) :
    main_run w net t argv = .exit 1 [unknownCmdMsg] [] := by
  simp only [List.mem_cons, List.not_mem_nil, or_false] at hcmd
  push_neg at hcmd
  obtain ⟨h1, h2, h3, h4, h5, h6⟩ := hcmd
  have hn : ¬ argv.length < 2 := by omega
  simp only [List.getD_eq_getElem?_getD] at h1 h2 h3 h4 h5 h6
  simp [main_run, hn, h1, h2, h3, h4, h5, h6]

/-- Claim C6 witness: a concrete unknown command word. -/
theorem unknown_command_exit1_witness :
    2 ≤ (["simple_assistant.py", "bogus"] : List String).length ∧
    main_run ⟨some "key", fun _ => true⟩ (Except.error "") ⟨0, 0, 0, 0, 0, 0⟩
      ["simple_assistant.py", "bogus"] = .exit 1 [unknownCmdMsg] [] :=
  ⟨by decide, unknown_command_exit1 ⟨some "key", fun _ => true⟩ (Except.error "")
    ⟨0, 0, 0, 0, 0, 0⟩ ["simple_assistant.py", "bogus"] (by decide) (by decide)⟩

/-- Claim C7: with the API key present, analysing a nonexistent path
`missing.jpg` exits with code 1 and the exact file-not-found message,
without reaching the network call (the result is an `exit`, produced
before any upload). -/
theorem analyze_missing_file (w : World)
    (hkey : keyMissing w = false)
    (hfile : w.fileExists "missing.jpg" = false) :
    analyze_image_run w "missing.jpg" = .exit 1 ["File not found: missing.jpg"] [] := by
  unfold analyze_image_run
  rw [hkey, hfile]
  simp

/-- Claim C7 witness. -/
theorem analyze_missing_file_witness :
    keyMissing ⟨some "key", fun _ => false⟩ = false ∧
    analyze_image_run ⟨some "key", fun _ => false⟩ "missing.jpg" =
      .exit 1 ["File not found: missing.jpg"] [] :=
  ⟨rfl, analyze_missing_file ⟨some "key", fun _ => false⟩ rfl rfl⟩

/-- Claim C8: with the API key environment variable absent, each of the
three commands prints the two guidance lines and exits with code 2 before
doing anything else: nothing is written and the network is never
reached. -/
theorem missing_api_key_exit2 (w : World) (msg path prompt : String)
    (net : Except String PyVal) (t : PyTime)
    (hkey : w.gemini_api_key = Option.none) :
    chat_run w msg = .exit 2 guidanceLines [] ∧
    analyze_image_run w path = .exit 2 guidanceLines [] ∧
    generate_image_run w net t prompt = .exit 2 guidanceLines [] := by
  have hk : keyMissing w = true := by unfold keyMissing; rw [hkey]
  refine ⟨?_, ?_, ?_⟩ <;> simp [chat_run, analyze_image_run, generate_image_run, hk]

/-- Claim C8 witness. -/
theorem missing_api_key_exit2_witness :
    (⟨Option.none, fun _ => true⟩ : World).gemini_api_key = Option.none ∧
    chat_run ⟨Option.none, fun _ => true⟩ "hi" = .exit 2 guidanceLines [] :=
  ⟨rfl, (missing_api_key_exit2 ⟨Option.none, fun _ => true⟩ "hi" "p" "q"
    (Except.error "") ⟨0, 0, 0, 0, 0, 0⟩ rfl).1⟩

/-- Claim C9: a successful `generate-image` run whose extraction yields at
least one payload writes exactly one file, at `outputs/gen-<timestamp>.png`
with the `%Y%m%d-%H%M%S` timestamp, whose contents are exactly the bytes
of the first extracted payload; later payloads are discarded.  The first
payload is in bytes or bytearray form in every successful run: inline
payloads are always bytes, and `Path.write_bytes` accepts bytes and
bytearray but raises `TypeError` on any other first payload (reachable
only through the top-level fallback), so no other run is successful. -/
theorem generate_saves_first_payload (w : World) (resp : PyVal) (t : PyTime)
    (prompt : String) (bs : List Nat) (rest : List PyVal)
    (hkey : keyMissing w = false)
    (hext : extract_images resp = PyVal.bytes bs :: rest ∨
      extract_images resp = PyVal.bytearray bs :: rest) :
    generate_image_run w (.ok resp) t prompt =
      .exit 0 ["Saved: outputs/gen-" ++ tsFormat t ++ ".png"]
        [("outputs/gen-" ++ tsFormat t ++ ".png", bs)] := by
  unfold generate_image_run
  rw [hkey]
  cases hext with
  | inl h =>
    simp [h]
    rw [← String.append_assoc, ← String.append_assoc]
    rfl
  | inr h =>
    simp [h]
    rw [← String.append_assoc, ← String.append_assoc]
    rfl

/-- Claim C9 witness: one inline image part (bytes first payload) and one
fallback-only response with a bytearray payload, each saved under the
formatted timestamp name. -/
theorem generate_saves_first_payload_witness :
    extract_images (mkRespParts [mkPart (mkInline "image/png" (PyVal.bytes [0, 255]))]) =
      PyVal.bytes [0, 255] :: [] ∧
    generate_image_run ⟨some "key", fun _ => false⟩
      (.ok (mkRespParts [mkPart (mkInline "image/png" (PyVal.bytes [0, 255]))]))
      ⟨2026, 10, 12, 1, 2, 3⟩ "a cat" =
      .exit 0 ["Saved: outputs/gen-20261012-010203.png"]
        [("outputs/gen-20261012-010203.png", [0, 255])] ∧
    extract_images (PyVal.obj [("image", PyVal.bytearray [1, 2])]) =
      PyVal.bytearray [1, 2] :: [] ∧
    generate_image_run ⟨some "key", fun _ => false⟩
      (.ok (PyVal.obj [("image", PyVal.bytearray [1, 2])]))
      ⟨2026, 10, 12, 1, 2, 3⟩ "a cat" =
      .exit 0 ["Saved: outputs/gen-20261012-010203.png"]
        [("outputs/gen-20261012-010203.png", [1, 2])] := by
  refine ⟨rfl, ?_, rfl, ?_⟩
  · rw [generate_saves_first_payload ⟨some "key", fun _ => false⟩
      (mkRespParts [mkPart (mkInline "image/png" (PyVal.bytes [0, 255]))])
      ⟨2026, 10, 12, 1, 2, 3⟩ "a cat" [0, 255] [] rfl (Or.inl rfl)]
    rfl
  · rw [generate_saves_first_payload ⟨some "key", fun _ => false⟩
      (PyVal.obj [("image", PyVal.bytearray [1, 2])])
      ⟨2026, 10, 12, 1, 2, 3⟩ "a cat" [1, 2] [] rfl (Or.inr rfl)]
    rfl

/-- Claim C10: the top-level fallback `image` payload bypasses the MIME
check and the base64 decoding applied to inline data: whenever it is
truthy its value is appended as-is, whatever its type or representation,
and a present-but-falsy value yields no image. -/
theorem fallback_payload_as_is (v : PyVal) :
    extract_images (PyVal.obj [("image", v)]) = if pyTruthy v then [v] else [] := by
  have h2 : extract_inline (PyVal.obj [("image", v)]) = [] := rfl
  have h3 : getattrD (PyVal.obj [("image", v)]) "image" PyVal.none = v := rfl
  unfold extract_images
  rw [h2, h3]
  simp
